import Mathlib

/-
Verification development for the intelligent-recruiter pipeline.

Shallow embedding of the two core modules the claims are about:

* src/pipelines/1_extraction.py — the guardrail masker (`apply_guardrails`)
  and the lexicon-based extractor (`extract_entities`).  A parsed spaCy
  document is embedded as a `List Tok`; the spaCy tokenizer/NER backend is
  the pluggable external collaborator, so documents enter the embedding
  already tokenized, with each token carrying the label of the entity span
  it belongs to (adjacent tokens with the same label form one entity span).

* src/pipelines/3_rag_service.py — `hybrid_candidate_search` over the
  Neo4j graph (embedded as an explicit `Graph` value, with the session
  outcome as an `Except` and the Cypher `rand()` stream as an explicit
  oracle `Nat → ℚ`) and `generate_rationale` (the fallible generation call
  inside the per-candidate try/except is an explicit parameter; the code
  instantiates it with the inline mock, `mock_call`).
-/

/-- A spaCy-style token: surface text, trailing whitespace (`whitespace_`),
lemma, fine-grained tag, and the label of the entity span the token belongs
to (`none` when the token is not inside a recognized entity). -/
structure Tok where
  text : String
  ws : String
  lemma_ : String
  tag : String
  ent : Option String
deriving DecidableEq

/-- config/settings.py: the list of entity labels to mask (MASKED_ENTITIES). -/
def MASKED_ENTITIES : List String :=
  ["PERSON", "GENDER", "AGE", "DATE", "ADDRESS", "ETHNICITY"]

/-- The placeholder written into the LEMMA attribute by apply_guardrails
(1_extraction.py line 29). -/
def MASK_LEMMA : String := "[MASKED_ENTITY]"

/-- The replacement for a single-token masked entity: retokenizer.merge with
attrs LEMMA/TAG rewrites those two attributes and nothing else — in
particular the surface text and whitespace are untouched. -/
def mk1 (l : String) (t : Tok) : Tok :=
  { text := t.text, ws := t.ws, lemma_ := MASK_LEMMA, tag := "XX", ent := some l }

/-- Merging token `t` into the already-merged masked token `u` directly to
its right: the merged token's text is the span text (inner whitespace kept,
as spaCy span merging does), its trailing whitespace is the last token's. -/
def mergeInto (l : String) (t u : Tok) : Tok :=
  { text := t.text ++ t.ws ++ u.text, ws := u.ws, lemma_ := MASK_LEMMA,
    tag := "XX", ent := some l }

/-- One right-fold step of the masking pass: a token inside a masked-category
entity is merged with the (already processed) rest of its span, so that each
masked entity span collapses into a single token carrying LEMMA
"[MASKED_ENTITY]" and TAG "XX"; all other tokens pass through unchanged. -/
def maskStep (t : Tok) (acc : List Tok) : List Tok :=
  match t.ent with
  | none => t :: acc
  | some l =>
    if l ∈ MASKED_ENTITIES then
      match acc with
      | [] => [mk1 l t]
      | u :: rest => if u.ent = some l then mergeInto l t u :: rest else mk1 l t :: acc
    else t :: acc

/-- apply_guardrails (1_extraction.py lines 23-30): every entity span whose
label is in MASKED_ENTITIES is merged into one token whose LEMMA is
"[MASKED_ENTITY]" and TAG is "XX".  retokenizer.merge only rewrites token
attributes, so the document's surface text is not changed. -/
def apply_guardrails (doc : List Tok) : List Tok :=
  doc.foldr maskStep []

/-- doc.text: concatenation of every token's surface text followed by its
trailing whitespace. -/
def docText : List Tok → String
  | [] => ""
  | t :: ts => t.text ++ (t.ws ++ docText ts)

/-- span.text: like `docText` but without the final token's trailing
whitespace. -/
def spanText : List Tok → String
  | [] => ""
  | [t] => t.text
  | t :: ts => t.text ++ (t.ws ++ spanText ts)

/-- str.lower() / Token.lower_: ASCII case folding, character by character. -/
def lowerStr (s : String) : String := String.mk (s.data.map Char.toLower)

/-- The fallback ESCO lexicon (1_extraction.py line 20; data/esco_skills.csv
is not in the repository, so the mock list is the effective vocabulary).
Entries are stored lower-cased, exactly as the loader lower-cases the csv
column. -/
def ESCO_SKILLS : List String :=
  ["python", "django", "flask", "javascript", "developer", "engineer"]

/-- Splits a character list into space-separated words (accumulator holds the
current word, reversed). -/
def wordsAux : List Char → List Char → List (List Char)
  | [], acc => [acc.reverse]
  | c :: cs, acc =>
    if c = ' ' then acc.reverse :: wordsAux cs [] else wordsAux cs (c :: acc)

/-- nlp.make_doc applied to a skill name: the token texts of the pattern
document (whitespace tokenization; every entry of the effective lexicon is a
single word). -/
def patternToks (s : String) : List String := (wordsAux s.data []).map String.mk

/-- The token texts of the contiguous candidate span of length `n` starting
at index `i`. -/
def segTexts (doc : List Tok) (i n : Nat) : List String :=
  ((doc.drop i).take n).map Tok.text

/-- spaCy PhraseMatcher with its default attribute ORTH: a pattern matches at
`i` iff the token texts starting at `i` equal the pattern token texts
verbatim, i.e. case-sensitively. -/
def orthMatchAt (doc : List Tok) (pat : List String) (i : Nat) : Bool :=
  segTexts doc i pat.length == pat

/-- All start positions at which the pattern matches. -/
def matchStarts (doc : List Tok) (pat : List String) : List Nat :=
  (List.range (doc.length + 1)).filter (orthMatchAt doc pat)

/-- The matched spans (as token lists) for one pattern. -/
def matchedSpans (doc : List Tok) (pat : List String) : List (List Tok) :=
  (matchStarts doc pat).map (fun i => (doc.drop i).take pat.length)

/-- The fixed role keyword list (1_extraction.py line 58). -/
def ROLE_WORDS : List String := ["developer", "engineer", "analyst"]

/-- The structured record built by extract_entities. -/
structure ExtractedRecord where
  text_clean : String
  skills : List String
  roles : List String
  experience_text : List String
deriving DecidableEq

/-- extract_entities (1_extraction.py lines 32-68) over an already-parsed
document: applies the guardrail first, then runs the ORTH PhraseMatcher over
the lexicon, lower-cases each matched span's text and deduplicates (Python's
list(set(..)) has no specified order; `List.dedup` is one deterministic
choice — no claim depends on the order), collects role keyword tokens
case-insensitively, and stores the masked document's text as text_clean. -/
def extract_entities (vocab : List String) (toks : List Tok) : ExtractedRecord :=
  let doc := apply_guardrails toks
  let spans := vocab.flatMap (fun s => matchedSpans doc (patternToks s))
  { text_clean := docText doc
    skills := (spans.map (fun sp => lowerStr (spanText sp))).dedup
    roles := (doc.filter (fun t => lowerStr t.text ∈ ROLE_WORDS)).map Tok.text
    experience_text := [docText doc] }

/-- Stated from the spec for comparison with the code: the pattern matches at
`i` up to case, i.e. the lower-cased token texts starting at `i` equal the
lower-cased pattern token texts. -/
def ciMatchAt (doc : List Tok) (pat : List String) (i : Nat) : Bool :=
  (segTexts doc i pat.length).map lowerStr == pat.map lowerStr

/-- Stated from the spec: the skill's canonical surface form appears
case-insensitively as a contiguous token span of the document. -/
def spec_ci_occurs (doc : List Tok) (s : String) : Bool :=
  (List.range (doc.length + 1)).any (ciMatchAt doc (patternToks s))

/-! Invariants used to prove masking idempotent. -/

/-- Two adjacent tokens never both sit inside the same masked-category entity
after masking (the span was collapsed into one token). -/
def okPair (x y : Tok) : Prop :=
  ∀ l, x.ent = some l → l ∈ MASKED_ENTITIES → y.ent ≠ some l

/-- Every token still carrying a masked-category entity label after masking
already has the placeholder LEMMA and TAG. -/
def wellMasked (x : Tok) : Prop :=
  ∀ l, x.ent = some l → l ∈ MASKED_ENTITIES → x.lemma_ = MASK_LEMMA ∧ x.tag = "XX"

/-! ### src/pipelines/3_rag_service.py -/

/-- A Candidate node as loaded by 2_kg_builder.py: id, clean_text, and the
skills it HAS_SKILL edges to. -/
structure GCand where
  id : String
  clean_text : String
  skills : List String
deriving DecidableEq

/-- The graph reachable from the Cypher query: the list of skills the
'target_job' Job node REQUIRES_SKILL (empty when the job is absent or has no
required skills), and the Candidate nodes. -/
structure Graph where
  jobRequires : List String
  candidates : List GCand
deriving DecidableEq

/-- One record returned by hybrid_candidate_search (candidate_id,
context_chunk, hybrid_score). -/
structure SearchRow where
  candidate_id : String
  context_chunk : String
  hybrid_score : ℚ
deriving DecidableEq

/-- The MATCH clauses: DISTINCT candidates having at least one of the target
job's required skills (the Cypher row order is not specified; the embedding
fixes the candidate-list order). -/
def matchedCandidates (g : Graph) : List GCand :=
  g.candidates.filter (fun c => g.jobRequires.any (fun rs => c.skills.contains rs))

/-- The RETURN projection for the rows starting at row index `i`: per row,
the candidate id, its clean_text as context_chunk, and the mocked score
0.8 + rand() * 0.1, with the Cypher rand() stream given as an explicit
oracle indexed by row number. -/
def searchRowsFrom (rand : Nat → ℚ) (i : Nat) : List GCand → List SearchRow
  | [] => []
  | c :: cs =>
    { candidate_id := c.id, context_chunk := c.clean_text,
      hybrid_score := 4/5 + rand i / 10 } :: searchRowsFrom rand (i + 1) cs

/-- The full RETURN projection over the matched candidates. -/
def searchRows (g : Graph) (rand : Nat → ℚ) : List SearchRow :=
  searchRowsFrom rand 0 (matchedCandidates g)

/-- Insertion into a descending-by-score list, placing the new row before the
first row that does not score strictly higher (so equal-score rows keep their
original relative order). -/
def insertDesc (x : SearchRow) : List SearchRow → List SearchRow
  | [] => [x]
  | y :: ys => if y.hybrid_score ≤ x.hybrid_score then x :: y :: ys else y :: insertDesc x ys

/-- ORDER BY hybrid_score DESC, embedded as a stable insertion sort. -/
def sortByScoreDesc : List SearchRow → List SearchRow
  | [] => []
  | x :: xs => insertDesc x (sortByScoreDesc xs)

/-- hybrid_candidate_search (3_rag_service.py lines 31-68).  `ready` is
self.initialized; the session outcome is an `Except` (the except branch
prints and returns []); the query text is only used to compute query_vector,
which the Cypher query never reads.  Rows are ordered by descending score and
truncated by LIMIT $k. -/
def hybrid_candidate_search (ready : Bool) (session : Except String Graph)
    (rand : Nat → ℚ) (query : String) (top_k : Nat) : List SearchRow :=
  if ready then
    match session with
    | Except.error _ => []
    | Except.ok g => (sortByScoreDesc (searchRows g rand)).take top_k
  else []

/-- Stated from the spec for comparison: the fraction of the job's required
skills the candidate holds. -/
def coverage (g : Graph) (c : GCand) : ℚ :=
  ((g.jobRequires.filter (fun rs => c.skills.contains rs)).length : ℚ) /
    (g.jobRequires.length : ℚ)

/-- The descending-score ordering relation on result rows. -/
def scoreGe (a b : SearchRow) : Prop := b.hybrid_score ≤ a.hybrid_score

/-! Rationale generation (3_rag_service.py lines 70-104). -/

/-- A retrieved row augmented with the generated rationale. -/
structure RatedResult extends SearchRow where
  rationale : String
deriving DecidableEq

/-- The augmented context block built per candidate. -/
def candidate_context (c : SearchRow) : String :=
  "Candidate ID: " ++ c.candidate_id ++ "\n---\nProfile Context: " ++
    c.context_chunk ++ "\n---"

/-- The prompt content assembled per candidate. -/
def prompt_content (job_query : String) (c : SearchRow) : String :=
  "Job Query: " ++ job_query ++ "\nCandidate Context:\n" ++ candidate_context c ++
    "\n\nBased ONLY on the context, provide a detailed rationale why this candidate is a good fit, focusing on skills and experience."

/-- The inline mock rationale text as a function of the candidate id — the
only field of the candidate the mock f-string interpolates. -/
def mock_rationale_of_id (cid : String) : String :=
  "Candidate " ++ cid ++
    " is a strong match due to confirmed proficiency in both Django and Flask, which are key Python web frameworks required by the role. The resume indicates multiple years of developer experience, directly addressing the seniority requirement. The match is solely based on technical qualifications and professional history."

/-- The inline mock rationale string — note it only reads candidate_id. -/
def mock_rationale (c : SearchRow) : String :=
  mock_rationale_of_id c.candidate_id

/-- The except-branch sentinel text. -/
def failure_sentinel (e : String) : String :=
  "Error generating rationale (API call failed): " ++ e

/-- The try/except body around the generation call: a successful call yields
its text, a failing call degrades to the sentinel message. -/
def rationale_of (call : SearchRow → String → Except String String)
    (job_query : String) (c : SearchRow) : String :=
  match call c (prompt_content job_query c) with
  | Except.ok r => r
  | Except.error e => failure_sentinel e

/-- generate_rationale: per retrieved candidate, build the prompt, attempt
the generation call, and attach the resulting rationale.  The fallible call
is a parameter; the code instantiates it with the inline mock. -/
def generate_rationale (call : SearchRow → String → Except String String)
    (retrieved : List SearchRow) (job_query : String) : List RatedResult :=
  retrieved.map (fun c => { toSearchRow := c, rationale := rationale_of call job_query c })

/-- The mock generation call actually present in the code: always succeeds
with the fixed rationale text (which depends only on candidate_id). -/
def mock_call (c : SearchRow) (prompt : String) : Except String String :=
  Except.ok (mock_rationale c)

/-- generate_rationale as shipped: the mock call plugged in. -/
def generate_rationale_impl (retrieved : List SearchRow) (job_query : String) :
    List RatedResult :=
  generate_rationale mock_call retrieved job_query

/-! Concrete inputs for counterexamples and witnesses. -/

/-- The parsed mock resume sentence "My name is Alex Johnson." with the NER
span "Alex Johnson" labelled PERSON (a masked category). -/
def exDoc : List Tok :=
  [ { text := "My", ws := " ", lemma_ := "my", tag := "PRP", ent := none },
    { text := "name", ws := " ", lemma_ := "name", tag := "NN", ent := none },
    { text := "is", ws := " ", lemma_ := "be", tag := "VBZ", ent := none },
    { text := "Alex", ws := " ", lemma_ := "Alex", tag := "NNP", ent := some "PERSON" },
    { text := "Johnson", ws := "", lemma_ := "Johnson", tag := "NNP", ent := some "PERSON" },
    { text := ".", ws := "", lemma_ := ".", tag := ".", ent := none } ]

/-- The parsed fragment "Experienced Python Developer": the skill "python"
occurs, capitalized. -/
def exDoc2 : List Tok :=
  [ { text := "Experienced", ws := " ", lemma_ := "experienced", tag := "JJ", ent := none },
    { text := "Python", ws := " ", lemma_ := "Python", tag := "NNP", ent := none },
    { text := "Developer", ws := "", lemma_ := "developer", tag := "NN", ent := none } ]

/-- A lower-case variant on which the ORTH matcher does fire. -/
def exDocLower : List Tok :=
  [ { text := "python", ws := " ", lemma_ := "python", tag := "NN", ent := none },
    { text := "developer", ws := "", lemma_ := "developer", tag := "NN", ent := none } ]

/-- A deterministic stand-in for the Cypher rand() stream. -/
def halfRand : Nat → ℚ := fun _ => 1/2

/-- Job requires python and django; CAND_A holds one of the two. -/
def g3a : Graph :=
  { jobRequires := ["python", "django"],
    candidates := [ { id := "CAND_A", clean_text := "ctx A", skills := ["python"] } ] }

/-- Same graph except CAND_A holds both required skills. -/
def g3b : Graph :=
  { jobRequires := ["python", "django"],
    candidates := [ { id := "CAND_A", clean_text := "ctx A", skills := ["python", "django"] } ] }

/-- Two matched candidates: CAND_B (coverage 1/2) stored before CAND_A
(coverage 1). -/
def g4 : Graph :=
  { jobRequires := ["python", "django"],
    candidates :=
      [ { id := "CAND_B", clean_text := "ctx B", skills := ["python"] },
        { id := "CAND_A", clean_text := "ctx A", skills := ["python", "django"] } ] }

/-- One required skill, one matching candidate. -/
def g5 : Graph :=
  { jobRequires := ["python"],
    candidates := [ { id := "CAND_A", clean_text := "ctx A", skills := ["python"] } ] }

/-- A job with required skills but no candidate holding any of them: the
normal zero-results outcome. -/
def gNoMatch : Graph :=
  { jobRequires := ["python"],
    candidates := [ { id := "CAND_A", clean_text := "ctx A", skills := ["cooking"] } ] }

/-- The target job resolves to no required skills (absent job or none
required). -/
def gEmptyReq : Graph :=
  { jobRequires := [],
    candidates := [ { id := "CAND_A", clean_text := "ctx A", skills := ["python"] } ] }

/-- Two retrieved rows used by the generation witnesses. -/
def wRows : List SearchRow :=
  [ { candidate_id := "CAND_0", context_chunk := "ctx0", hybrid_score := 17/20 },
    { candidate_id := "CAND_1", context_chunk := "ctx1", hybrid_score := 4/5 } ]

/-- A generation call that fails exactly on CAND_0. -/
def wCall (c : SearchRow) (prompt : String) : Except String String :=
  if c.candidate_id = "CAND_0" then Except.error "boom" else Except.ok (mock_rationale c)

/-! ## Helper lemmas about the masking pass -/

/-- A single-token replacement is the identity on tokens already carrying the
placeholder attributes. -/
theorem mk1_eq_self (z : Tok) (l : String) (hz : z.ent = some l)
    (h1 : z.lemma_ = MASK_LEMMA) (h2 : z.tag = "XX") : mk1 l z = z := by
  cases z
  simp_all [mk1]

/-- `maskStep` always yields a nonempty list whose head carries the incoming
token's entity label. -/
theorem maskStep_head_ent (t : Tok) (acc : List Tok) :
    ∃ hd tl, maskStep t acc = hd :: tl ∧ hd.ent = t.ent := by
  unfold maskStep
  cases ht : t.ent with
  | none => exact ⟨t, acc, rfl, ht⟩
  | some l =>
    by_cases hm : l ∈ MASKED_ENTITIES
    · cases acc with
      | nil => exact ⟨mk1 l t, [], by simp [hm], rfl⟩
      | cons u rest =>
        by_cases hu : u.ent = some l
        · exact ⟨mergeInto l t u, rest, by simp [hm, hu], rfl⟩
        · exact ⟨mk1 l t, u :: rest, by simp [hm, hu], rfl⟩
    · exact ⟨t, acc, by simp [hm], ht⟩

/-- `maskStep` preserves every invariant `okPair` chain of the accumulator. -/
theorem chain_maskStep (t : Tok) (acc : List Tok) (h : List.Chain' okPair acc) :
    List.Chain' okPair (maskStep t acc) := by
  unfold maskStep
  cases ht : t.ent with
  | none =>
    rw [List.chain'_cons']
    refine ⟨?_, h⟩
    intro y hy l2 hl2 hm2
    rw [ht] at hl2
    cases hl2
  | some l =>
    by_cases hm : l ∈ MASKED_ENTITIES
    · cases acc with
      | nil => simp [hm]
      | cons u rest =>
        rw [List.chain'_cons'] at h
        obtain ⟨hu_rest, hrest⟩ := h
        by_cases hu : u.ent = some l
        · simp only [if_pos hm, if_pos hu]
          rw [List.chain'_cons']
          refine ⟨?_, hrest⟩
          intro y hy l2 hl2 hm2
          have hl2' : l2 = l := by simpa [mergeInto] using hl2.symm
          subst hl2'
          exact hu_rest y hy l2 hu hm2
        · simp only [if_pos hm, if_neg hu]
          rw [List.chain'_cons']
          refine ⟨?_, List.chain'_cons'.mpr ⟨hu_rest, hrest⟩⟩
          intro y hy l2 hl2 hm2
          have hy' : u = y := by simpa using hy
          have hl2' : l2 = l := by simpa [mk1] using hl2.symm
          subst hy'
          subst hl2'
          exact hu
    · simp only [if_neg hm]
      rw [List.chain'_cons']
      refine ⟨?_, h⟩
      intro y hy l2 hl2 hm2
      rw [ht] at hl2
      injection hl2 with h2
      subst h2
      exact (hm hm2).elim

/-- After masking, no two adjacent tokens sit inside the same masked-category
entity. -/
theorem chain_apply_guardrails (doc : List Tok) :
    List.Chain' okPair (apply_guardrails doc) := by
  induction doc with
  | nil => simp [apply_guardrails]
  | cons t ts ih => exact chain_maskStep t (apply_guardrails ts) ih

/-- `maskStep` preserves the `wellMasked` invariant. -/
theorem wellMasked_maskStep (t : Tok) (acc : List Tok)
    (h : ∀ x ∈ acc, wellMasked x) : ∀ x ∈ maskStep t acc, wellMasked x := by
  unfold maskStep
  cases ht : t.ent with
  | none =>
    intro x hx
    rcases List.mem_cons.mp hx with rfl | hx2
    · intro l2 hl2 hm2
      rw [ht] at hl2
      cases hl2
    · exact h x hx2
  | some l =>
    by_cases hm : l ∈ MASKED_ENTITIES
    · cases acc with
      | nil =>
        simp only [if_pos hm]
        intro x hx
        have hx' : x = mk1 l t := by simpa using hx
        subst hx'
        intro l2 hl2 hm2
        exact ⟨rfl, rfl⟩
      | cons u rest =>
        by_cases hu : u.ent = some l
        · simp only [if_pos hm, if_pos hu]
          intro x hx
          rcases List.mem_cons.mp hx with rfl | hx2
          · intro l2 hl2 hm2
            exact ⟨rfl, rfl⟩
          · exact h x (List.mem_cons_of_mem u hx2)
        · simp only [if_pos hm, if_neg hu]
          intro x hx
          rcases List.mem_cons.mp hx with rfl | hx2
          · intro l2 hl2 hm2
            exact ⟨rfl, rfl⟩
          · exact h x hx2
    · simp only [if_neg hm]
      intro x hx
      rcases List.mem_cons.mp hx with rfl | hx2
      · intro l2 hl2 hm2
        rw [ht] at hl2
        injection hl2 with h2
        subst h2
        exact (hm hm2).elim
      · exact h x hx2

/-- After masking, every token still inside a masked-category entity carries
the placeholder attributes. -/
theorem wellMasked_apply_guardrails (doc : List Tok) :
    ∀ x ∈ apply_guardrails doc, wellMasked x := by
  induction doc with
  | nil => intro x hx; cases hx
  | cons t ts ih => exact wellMasked_maskStep t (apply_guardrails ts) ih

/-- Masking is the identity on any token list satisfying both invariants. -/
theorem apply_guardrails_fixed (zs : List Tok)
    (hc : List.Chain' okPair zs) (hw : ∀ x ∈ zs, wellMasked x) :
    apply_guardrails zs = zs := by
  induction zs with
  | nil => rfl
  | cons z rest ih =>
    have hcr : List.Chain' okPair rest := (List.chain'_cons'.mp hc).2
    have hhead : ∀ y ∈ rest.head?, okPair z y := (List.chain'_cons'.mp hc).1
    have hwr : ∀ x ∈ rest, wellMasked x := fun x hx => hw x (List.mem_cons_of_mem z hx)
    have ihr : apply_guardrails rest = rest := ih hcr hwr
    show maskStep z (apply_guardrails rest) = z :: rest
    rw [ihr]
    unfold maskStep
    cases hz : z.ent with
    | none => rfl
    | some l =>
      by_cases hm : l ∈ MASKED_ENTITIES
      · have hzw := hw z (List.mem_cons_self z rest) l hz hm
        cases rest with
        | nil =>
          simp only [if_pos hm]
          rw [mk1_eq_self z l hz hzw.1 hzw.2]
        | cons u rest2 =>
          have hune : u.ent ≠ some l := hhead u rfl l hz hm
          simp only [if_pos hm, if_neg hune]
          rw [mk1_eq_self z l hz hzw.1 hzw.2]
      · simp only [if_neg hm]

/-- C6: masking is idempotent — applying the guardrail masker to its own
output yields the same document as applying it once. -/
theorem apply_guardrails_idempotent (doc : List Tok) :
    apply_guardrails (apply_guardrails doc) = apply_guardrails doc :=
  apply_guardrails_fixed (apply_guardrails doc) (chain_apply_guardrails doc)
    (wellMasked_apply_guardrails doc)

/-- C1: the masking step does not remove the literal text of a recognized
masked-category span.  In the parsed mock resume sentence, "Alex Johnson" is
a PERSON span and PERSON is a masked category, yet the persisted clean text
(text_clean, the masked document's text) is the raw text and still contains
the literal span "Alex Johnson": retokenizer.merge only rewrites the LEMMA
and TAG attributes. -/
theorem masked_span_text_persists :
    "PERSON" ∈ MASKED_ENTITIES ∧
    ((exDoc.drop 3).take 2).map Tok.ent = [some "PERSON", some "PERSON"] ∧
    spanText ((exDoc.drop 3).take 2) = "Alex Johnson" ∧
    (extract_entities ESCO_SKILLS exDoc).text_clean = docText exDoc ∧
    "Alex Johnson".data <:+: (extract_entities ESCO_SKILLS exDoc).text_clean.data :=
  ⟨by decide, by decide, by decide, by decide, by decide⟩

/-- C2: skill matching is not case-insensitive.  The vocabulary entry
"python" occurs (case-insensitively) as a contiguous span of the masked
document "Experienced Python Developer", but the extractor records no skill
at all, because the PhraseMatcher compares token texts verbatim (default
ORTH attribute) against the lower-cased lexicon; on an all-lower-case
document the same extractor does record the skills. -/
theorem capitalized_skill_not_recorded :
    "python" ∈ ESCO_SKILLS ∧
    spec_ci_occurs (apply_guardrails exDoc2) "python" = true ∧
    (extract_entities ESCO_SKILLS exDoc2).skills = [] ∧
    (extract_entities ESCO_SKILLS exDocLower).skills = ["python", "developer"] :=
  ⟨by decide, by decide, by decide, by decide⟩

/-! ## Helper lemmas about the retrieval step -/

/-- Membership in an insertion. -/
theorem mem_insertDesc {x a : SearchRow} {l : List SearchRow} :
    a ∈ insertDesc x l ↔ a = x ∨ a ∈ l := by
  induction l with
  | nil => simp [insertDesc]
  | cons y ys ih =>
    unfold insertDesc
    by_cases hcmp : y.hybrid_score ≤ x.hybrid_score
    · simp only [if_pos hcmp, List.mem_cons]
    · simp only [if_neg hcmp, List.mem_cons, ih]
      tauto

/-- Inserting into a descending list keeps it descending. -/
theorem pairwise_insertDesc (x : SearchRow) (l : List SearchRow)
    (h : List.Pairwise scoreGe l) : List.Pairwise scoreGe (insertDesc x l) := by
  induction l with
  | nil => simp [insertDesc, scoreGe]
  | cons y ys ih =>
    rw [List.pairwise_cons] at h
    obtain ⟨hy, hys⟩ := h
    unfold insertDesc
    by_cases hcmp : y.hybrid_score ≤ x.hybrid_score
    · simp only [if_pos hcmp]
      rw [List.pairwise_cons]
      constructor
      · intro z hz
        rcases List.mem_cons.mp hz with rfl | hz2
        · exact hcmp
        · exact le_trans (hy z hz2) hcmp
      · exact List.pairwise_cons.mpr ⟨hy, hys⟩
    · simp only [if_neg hcmp]
      rw [List.pairwise_cons]
      constructor
      · intro z hz
        rcases mem_insertDesc.mp hz with rfl | hz2
        · exact le_of_lt (lt_of_not_le hcmp)
        · exact hy z hz2
      · exact ih hys

/-- The sort output is descending by score. -/
theorem pairwise_sortByScoreDesc (l : List SearchRow) :
    List.Pairwise scoreGe (sortByScoreDesc l) := by
  induction l with
  | nil => simp [sortByScoreDesc]
  | cons x xs ih => exact pairwise_insertDesc x (sortByScoreDesc xs) ih

/-- The sort output has the same members as its input. -/
theorem mem_sortByScoreDesc {a : SearchRow} {l : List SearchRow} :
    a ∈ sortByScoreDesc l ↔ a ∈ l := by
  induction l with
  | nil => simp [sortByScoreDesc]
  | cons x xs ih =>
    show a ∈ insertDesc x (sortByScoreDesc xs) ↔ _
    rw [mem_insertDesc, ih, List.mem_cons]

/-- Computing the spec-side coverage fraction from the two counts. -/
theorem coverage_eq (g : Graph) (c : GCand) (m n : Nat)
    (hm : (g.jobRequires.filter (fun rs => c.skills.contains rs)).length = m)
    (hn : g.jobRequires.length = n) :
    coverage g c = (m : ℚ) / (n : ℚ) := by
  unfold coverage
  rw [hm, hn]

/-- Every projected row's score is the mocked value for some rand index. -/
theorem score_searchRowsFrom (rand : Nat → ℚ) (i : Nat) (cs : List GCand) :
    ∀ row ∈ searchRowsFrom rand i cs, ∃ j, row.hybrid_score = 4/5 + rand j / 10 := by
  induction cs generalizing i with
  | nil => intro row h; cases h
  | cons c cs2 ih =>
    intro row h
    rcases List.mem_cons.mp h with rfl | h2
    · exact ⟨i, rfl⟩
    · exact ih (i + 1) row h2

/-- C3 (amended): a candidate is excluded when the target job resolves to no
required skills; the search result carries no coverage value — its score is
the mocked value 0.8 + 0.1·rand(row), and the output is identical for any
two query texts, so neither the skill-coverage signal nor the text-similarity
signal contributes to the score. -/
theorem search_score_is_mocked (g : Graph) (rand : Nat → ℚ) (q q2 : String) (k : Nat) :
    hybrid_candidate_search true (Except.ok g) rand q k
      = hybrid_candidate_search true (Except.ok g) rand q2 k ∧
    (g.jobRequires = [] → hybrid_candidate_search true (Except.ok g) rand q k = []) ∧
    ∀ row ∈ hybrid_candidate_search true (Except.ok g) rand q k,
      ∃ j, row.hybrid_score = 4/5 + rand j / 10 := by
  refine ⟨rfl, ?_, ?_⟩
  · intro h
    simp [hybrid_candidate_search, searchRows, matchedCandidates, h, searchRowsFrom,
      sortByScoreDesc]
  · intro row hrow
    have hrow2 : row ∈ (sortByScoreDesc (searchRows g rand)).take k := hrow
    exact score_searchRowsFrom rand 0 (matchedCandidates g) row
      (mem_sortByScoreDesc.mp (List.take_subset k (sortByScoreDesc (searchRows g rand)) hrow2))

/-- C3 witness: at a job with no required skills the search returns the empty
sequence, and the returned score of a matched candidate is the mocked value
for rand index 0. -/
theorem search_score_is_mocked_witness :
    hybrid_candidate_search true (Except.ok gEmptyReq) halfRand "query A" 3 = [] ∧
    ∃ j, (17/20 : ℚ) = 4/5 + halfRand j / 10 := by
  constructor
  · exact (search_score_is_mocked gEmptyReq halfRand "query A" "query B" 3).2.1 rfl
  · obtain ⟨j, hj⟩ := (search_score_is_mocked g5 halfRand "query A" "query B" 5).2.2
      { candidate_id := "CAND_A", context_chunk := "ctx A", hybrid_score := 17/20 }
      (by norm_num [hybrid_candidate_search, searchRows, searchRowsFrom, matchedCandidates,
        sortByScoreDesc, insertDesc, g5, halfRand])
    exact ⟨j, hj⟩

/-- C3 counterexample: two graphs in which CAND_A covers 1/2 respectively all
of the job's required skills produce the same single result row with the
same mocked score 17/20, for two unrelated query texts; the score equals
neither coverage value, so the claimed coverage/similarity combination is
absent. -/
theorem search_output_ignores_coverage_and_query :
    hybrid_candidate_search true (Except.ok g3a) halfRand "Senior Python Developer" 5
      = hybrid_candidate_search true (Except.ok g3b) halfRand "unrelated gardening query" 5 ∧
    hybrid_candidate_search true (Except.ok g3a) halfRand "Senior Python Developer" 5
      = [{ candidate_id := "CAND_A", context_chunk := "ctx A", hybrid_score := 17/20 }] ∧
    coverage g3a { id := "CAND_A", clean_text := "ctx A", skills := ["python"] } = 1/2 ∧
    coverage g3b { id := "CAND_A", clean_text := "ctx A", skills := ["python", "django"] } = 1 ∧
    (17/20 : ℚ) ≠ 1/2 ∧ (17/20 : ℚ) ≠ 1 := by
  refine ⟨?_, ?_, ?_, ?_, by norm_num, by norm_num⟩
  · norm_num [hybrid_candidate_search, searchRows, searchRowsFrom, matchedCandidates,
      sortByScoreDesc, insertDesc, g3a, g3b, halfRand]
  · norm_num [hybrid_candidate_search, searchRows, searchRowsFrom, matchedCandidates,
      sortByScoreDesc, insertDesc, g3a, halfRand]
  · rw [coverage_eq g3a _ 1 2 (by decide) (by decide)]
    norm_num
  · rw [coverage_eq g3b _ 2 2 (by decide) (by decide)]
    norm_num

/-- C4 (amended): the result sequence is sorted descending by score and
truncated to topK, and every result is one of the projected rows; equal-score
results keep the retrieval row order — no coverage or candidate-id
tie-breaking is applied (see the counterexample). -/
theorem search_sorted_desc_truncated (g : Graph) (rand : Nat → ℚ) (q : String) (k : Nat) :
    List.Pairwise scoreGe (hybrid_candidate_search true (Except.ok g) rand q k) ∧
    (hybrid_candidate_search true (Except.ok g) rand q k).length ≤ k ∧
    ∀ row ∈ hybrid_candidate_search true (Except.ok g) rand q k,
      row ∈ searchRows g rand := by
  have hdef : hybrid_candidate_search true (Except.ok g) rand q k
      = (sortByScoreDesc (searchRows g rand)).take k := rfl
  refine ⟨?_, ?_, ?_⟩
  · rw [hdef]
    exact List.Pairwise.sublist (List.take_sublist k (sortByScoreDesc (searchRows g rand)))
      (pairwise_sortByScoreDesc (searchRows g rand))
  · rw [hdef]
    simp only [List.length_take]
    omega
  · intro row hrow
    rw [hdef] at hrow
    exact mem_sortByScoreDesc.mp (List.take_subset k (sortByScoreDesc (searchRows g rand)) hrow)

/-- C4 witness: the first returned row for the two-candidate graph is one of
the projected rows. -/
theorem search_sorted_desc_truncated_witness :
    ({ candidate_id := "CAND_B", context_chunk := "ctx B",
        hybrid_score := (17/20 : ℚ) } : SearchRow) ∈ searchRows g4 halfRand := by
  refine (search_sorted_desc_truncated g4 halfRand "Senior Python Developer" 2).2.2 _ ?_
  norm_num [hybrid_candidate_search, searchRows, searchRowsFrom, matchedCandidates,
    sortByScoreDesc, insertDesc, g4, halfRand]

/-- C4 counterexample: with the constant rand stream both candidates score
exactly 17/20, and the output keeps the retrieval row order — CAND_B
(coverage 1/2) ranks before CAND_A (coverage 1, and also the
lexicographically smaller id), contradicting the claimed coverage and id
tie-breaking. -/
theorem equal_score_tie_ignores_coverage :
    hybrid_candidate_search true (Except.ok g4) halfRand "q" 5
      = [{ candidate_id := "CAND_B", context_chunk := "ctx B", hybrid_score := 17/20 },
         { candidate_id := "CAND_A", context_chunk := "ctx A", hybrid_score := 17/20 }] ∧
    coverage g4 { id := "CAND_A", clean_text := "ctx A", skills := ["python", "django"] } = 1 ∧
    coverage g4 { id := "CAND_B", clean_text := "ctx B", skills := ["python"] } = 1/2 ∧
    (1/2 : ℚ) < 1 := by
  refine ⟨?_, ?_, ?_, by norm_num⟩
  · norm_num [hybrid_candidate_search, searchRows, searchRowsFrom, matchedCandidates,
      sortByScoreDesc, insertDesc, g4, halfRand]
  · rw [coverage_eq g4 _ 2 2 (by decide) (by decide)]
    norm_num
  · rw [coverage_eq g4 _ 1 2 (by decide) (by decide)]
    norm_num

/-- C5 (amended): hybrid_candidate_search takes no minThreshold parameter and
applies no score filtering; whenever the rand stream stays in [0, 1) — as
Cypher's rand() does — every returned score lies in [0.8, 0.9), and in
particular no result scores below the claimed default threshold 0. -/
theorem search_scores_bounded (g : Graph) (rand : Nat → ℚ) (q : String) (k : Nat)
    (h : ∀ i, 0 ≤ rand i ∧ rand i < 1) :
    ∀ row ∈ hybrid_candidate_search true (Except.ok g) rand q k,
      0 ≤ row.hybrid_score ∧ 4/5 ≤ row.hybrid_score ∧ row.hybrid_score < 9/10 := by
  intro row hrow
  have hrow2 : row ∈ (sortByScoreDesc (searchRows g rand)).take k := hrow
  have hmem : row ∈ searchRows g rand :=
    mem_sortByScoreDesc.mp (List.take_subset k (sortByScoreDesc (searchRows g rand)) hrow2)
  obtain ⟨j, hj⟩ := score_searchRowsFrom rand 0 (matchedCandidates g) row hmem
  obtain ⟨h0, h1⟩ := h j
  rw [hj]
  refine ⟨by linarith, by linarith, by linarith⟩

/-- C5 witness: the bounds instantiated at the concrete one-candidate run. -/
theorem search_scores_bounded_witness :
    0 ≤ (17/20 : ℚ) ∧ 4/5 ≤ (17/20 : ℚ) ∧ (17/20 : ℚ) < 9/10 := by
  refine search_scores_bounded g5 halfRand "q" 5 (fun i => by norm_num [halfRand])
    { candidate_id := "CAND_A", context_chunk := "ctx A", hybrid_score := 17/20 } ?_
  norm_num [hybrid_candidate_search, searchRows, searchRowsFrom, matchedCandidates,
    sortByScoreDesc, insertDesc, g5, halfRand]

/-- C5 counterexample: the returned row scores 17/20 < 9/10; a caller wanting
a minimum threshold of 0.9 cannot obtain it — the function has no
minThreshold parameter and returns the row regardless. -/
theorem result_below_requested_threshold :
    hybrid_candidate_search true (Except.ok g5) halfRand "q" 5
      = [{ candidate_id := "CAND_A", context_chunk := "ctx A", hybrid_score := 17/20 }] ∧
    (17/20 : ℚ) < 9/10 := by
  refine ⟨?_, by norm_num⟩
  norm_num [hybrid_candidate_search, searchRows, searchRowsFrom, matchedCandidates,
    sortByScoreDesc, insertDesc, g5, halfRand]

/-- C8 (amended): a retrieval-time failure is caught inside the function and
returned as the empty sequence; a job resolving to no required skills also
yields the empty sequence (not an error), and an uninitialized service
likewise returns the empty sequence — the caller cannot distinguish the
three. -/
theorem retrieval_error_swallowed_to_empty (e : String) (g : Graph) (rand : Nat → ℚ)
    (q : String) (k : Nat) :
    hybrid_candidate_search true (Except.error e) rand q k = [] ∧
    (g.jobRequires = [] → hybrid_candidate_search true (Except.ok g) rand q k = []) ∧
    hybrid_candidate_search false (Except.ok g) rand q k = [] := by
  refine ⟨rfl, ?_, rfl⟩
  intro h
  simp [hybrid_candidate_search, searchRows, matchedCandidates, h, searchRowsFrom,
    sortByScoreDesc]

/-- C8 witness: the empty-required-skills case instantiated concretely. -/
theorem retrieval_error_swallowed_to_empty_witness :
    hybrid_candidate_search true (Except.ok gEmptyReq) halfRand "q" 5 = [] :=
  (retrieval_error_swallowed_to_empty "connection refused" gEmptyReq halfRand "q" 5).2.1 rfl

/-- C8 counterexample: a query error and the normal zero-results outcome
produce the identical value [] — the failure is not surfaced as a hard
failure and is indistinguishable from "no candidates match". -/
theorem retrieval_error_equals_no_results :
    hybrid_candidate_search true (Except.error "Neo4j unreachable") halfRand "q" 5 = [] ∧
    hybrid_candidate_search true (Except.ok gNoMatch) halfRand "q" 5 = [] ∧
    hybrid_candidate_search true (Except.error "Neo4j unreachable") halfRand "q" 5
      = hybrid_candidate_search true (Except.ok gNoMatch) halfRand "q" 5 := by
  refine ⟨rfl, by decide, by decide⟩

/-! ## Helper lemmas about the generation step -/

/-- The failure sentinel is never the empty string. -/
theorem failure_sentinel_ne (e : String) : failure_sentinel e ≠ "" := by
  unfold failure_sentinel
  intro hcontra
  have h2 := congrArg String.length hcontra
  rw [String.length_append] at h2
  have h3 : ("Error generating rationale (API call failed): ").length = 46 := rfl
  have h4 : ("" : String).length = 0 := rfl
  rw [h3, h4] at h2
  omega

/-- C7: if the generation call fails for the candidate at position i, that
candidate still appears at position i of the returned sequence, carrying the
non-empty sentinel rationale, the sequence keeps its length, and every other
position's rationale is the same as under any generation call that agrees
off position i — generation failure never removes a retrieval result nor
touches the other rationales. -/
theorem generation_failure_isolation
    (call call2 : SearchRow → String → Except String String)
    (cands : List SearchRow) (jq : String) (i : Nat) (e : String)
    (hi : i < cands.length)
    (hfail : call (cands.get ⟨i, hi⟩) (prompt_content jq (cands.get ⟨i, hi⟩))
      = Except.error e)
    (hagree : ∀ (j : Nat) (hj : j < cands.length), j ≠ i → ∀ p,
        call (cands.get ⟨j, hj⟩) p = call2 (cands.get ⟨j, hj⟩) p) :
    ∃ hi2 : i < (generate_rationale call cands jq).length,
      ((generate_rationale call cands jq).get ⟨i, hi2⟩).toSearchRow = cands.get ⟨i, hi⟩ ∧
      ((generate_rationale call cands jq).get ⟨i, hi2⟩).rationale = failure_sentinel e ∧
      ((generate_rationale call cands jq).get ⟨i, hi2⟩).rationale ≠ "" ∧
      (generate_rationale call cands jq).length = cands.length ∧
      ∀ (j : Nat) (hj : j < cands.length), j ≠ i →
        ∃ hj2 : j < (generate_rationale call cands jq).length,
        ∃ hj3 : j < (generate_rationale call2 cands jq).length,
          ((generate_rationale call cands jq).get ⟨j, hj2⟩).rationale
            = ((generate_rationale call2 cands jq).get ⟨j, hj3⟩).rationale := by
  have hlen : (generate_rationale call cands jq).length = cands.length := by
    simp [generate_rationale]
  have hlen2 : (generate_rationale call2 cands jq).length = cands.length := by
    simp [generate_rationale]
  have hget : ∀ (c : SearchRow → String → Except String String) (j : Nat)
      (hj : j < cands.length) (hj2 : j < (generate_rationale c cands jq).length),
      (generate_rationale c cands jq).get ⟨j, hj2⟩
        = { toSearchRow := cands.get ⟨j, hj⟩,
            rationale := rationale_of c jq (cands.get ⟨j, hj⟩) } := by
    intro c j hj hj2
    simp [generate_rationale, List.get_eq_getElem, List.getElem_map]
  refine ⟨by rw [hlen]; exact hi, ?_, ?_, ?_, hlen, ?_⟩
  · rw [hget call i hi]
  · rw [hget call i hi]
    show rationale_of call jq (cands.get ⟨i, hi⟩) = failure_sentinel e
    unfold rationale_of
    rw [hfail]
  · rw [hget call i hi]
    show rationale_of call jq (cands.get ⟨i, hi⟩) ≠ ""
    unfold rationale_of
    rw [hfail]
    exact failure_sentinel_ne e
  · intro j hj hne
    refine ⟨by rw [hlen]; exact hj, by rw [hlen2]; exact hj, ?_⟩
    rw [hget call j hj, hget call2 j hj]
    show rationale_of call jq (cands.get ⟨j, hj⟩)
      = rationale_of call2 jq (cands.get ⟨j, hj⟩)
    unfold rationale_of
    rw [hagree j hj hne (prompt_content jq (cands.get ⟨j, hj⟩))]

/-- C7 witness: with a call failing exactly on CAND_0 (row 0), the returned
sequence keeps its length, row 0 carries the non-empty sentinel and row 1's
rationale equals the one the all-success mock call produces. -/
theorem generation_failure_isolation_witness :
    (generate_rationale wCall wRows "Senior Python Developer").length = wRows.length := by
  obtain ⟨hi2, hrow, hsent, hne, hlen, hrest⟩ :=
    generation_failure_isolation wCall mock_call wRows "Senior Python Developer" 0 "boom"
      (by decide)
      (by rfl)
      (by
        intro j hj hne p
        rcases j with _ | _ | j
        · exact absurd rfl hne
        · rfl
        · rw [show wRows.length = 2 from rfl] at hj
          omega)
  exact hlen

/-- C9: the rationale-generation step returns a sequence of the same length,
whose element-wise underlying retrieval rows — candidate id, context chunk
and score — are exactly the input sequence in order; only the rationale
field is added.  Stated for an arbitrary generation call and for the shipped
mock instantiation. -/
theorem generate_rationale_frame (call : SearchRow → String → Except String String)
    (retrieved : List SearchRow) (jq : String) :
    (generate_rationale call retrieved jq).length = retrieved.length ∧
    (generate_rationale call retrieved jq).map RatedResult.toSearchRow = retrieved ∧
    (generate_rationale_impl retrieved jq).map RatedResult.toSearchRow = retrieved := by
  refine ⟨by simp [generate_rationale], ?_, ?_⟩
  · simp [generate_rationale, List.map_map]
    exact List.map_id retrieved
  · simp [generate_rationale_impl, generate_rationale, List.map_map]
    exact List.map_id retrieved

/-- The shipped rationale text per row is a fixed function of its candidate
id alone. -/
theorem impl_rationale_map (l : List SearchRow) (q : String) :
    (generate_rationale_impl l q).map RatedResult.rationale
      = (l.map SearchRow.candidate_id).map mock_rationale_of_id := by
  rw [generate_rationale_impl, generate_rationale, List.map_map, List.map_map]
  rfl

/-- C10: the generated rationale depends only on the candidate id — two input
sequences with the same candidate ids, under any two job queries (hence any
context texts and scores), receive identical rationale texts. -/
theorem rationale_depends_only_on_candidate_id
    (cands cands2 : List SearchRow) (jq jq2 : String)
    (h : cands.map SearchRow.candidate_id = cands2.map SearchRow.candidate_id) :
    (generate_rationale_impl cands jq).map RatedResult.rationale
      = (generate_rationale_impl cands2 jq2).map RatedResult.rationale := by
  rw [impl_rationale_map, impl_rationale_map, h]

/-- C10 witness: same candidate id, different context, score and query —
identical rationale text. -/
theorem rationale_depends_only_on_candidate_id_witness :
    (generate_rationale_impl
        [{ candidate_id := "CAND_X", context_chunk := "five years of Django",
            hybrid_score := 17/20 }] "Senior Python Developer").map RatedResult.rationale
      = (generate_rationale_impl
        [{ candidate_id := "CAND_X", context_chunk := "completely different text",
            hybrid_score := 1/5 }] "Data Analyst").map RatedResult.rationale :=
  rationale_depends_only_on_candidate_id _ _ _ _ rfl
